import Mathlib

/-!
Shallow embedding of the Sugarscape-with-trade repository
(src/agents.py, src/sugarscape.py, src/utils.py).

Conventions of the embedding:
- Python numbers are modelled exactly: integer quantities and float
  arithmetic whose values stay rational are carried in ℚ, genuinely
  irrational values (square roots, Cobb-Douglas powers) in ℝ.
- Python runtime failures are modelled by an explicit error value
  `PyErr` in an `Except` result: an attribute lookup that no class of
  the sources defines is `attributeError`, an ill-typed arithmetic
  operation `typeError`, a failed assert `assertionError`, and
  exhausting the recursion fuel `recursionError`.
- Mutation of agent objects is modelled by explicit state passing: a
  method that mutates `self` and `other` returns the updated records.
-/

namespace Sugarscape

/-- Role string recorded by `Trader.trade` (the Python code uses the
strings "seller" and "buyer"; modelled as an enumeration). -/
inductive Role where
  | seller
  | buyer
deriving Repr, DecidableEq

/-- The two attribute names referenced in `Trader.sell_spice`
(src/agents.py lines 145 and 149) that no class of the sources defines:
`other.calculate_welfare(...)` and `other.calculate(...)`. -/
inductive MissingMethod where
  | calculate_welfare
  | calculate
deriving Repr, DecidableEq

/-- Python runtime errors the embedded code can raise. -/
inductive PyErr where
  | attributeError (m : MissingMethod)
  | typeError
  | assertionError
  | recursionError
deriving Repr, DecidableEq

/-- State of a `Trader` agent (src/agents.py, `Trader.__init__`):
endowments, metabolism rates and the per-tick trade history lists. -/
structure Trader where
  unique_id : ℕ
  sugar : ℚ
  spice : ℚ
  metabolism_sugar : ℚ
  metabolism_spice : ℚ
  prices : List ℝ
  trade_partners : List ℕ
  bought_or_sold : List Role

/-- A resource patch (a `Sugar` or `Spice` agent) sitting on a cell:
only its current `amount` matters to `Trader.eat`. -/
structure Patch where
  amount : ℚ
deriving Repr, DecidableEq

/-- What `Trader.get_resource(pos)` finds at one cell: an optional sugar
patch and an optional spice patch. -/
structure Cell where
  sugar_patch : Option Patch
  spice_patch : Option Patch
deriving Repr, DecidableEq

/-- Python `math.isclose` with its default tolerances
(rel_tol = 1e-9, abs_tol = 0.0):
abs(a-b) <= max(rel_tol * max(abs(a), abs(b)), abs_tol). -/
def pyisclose (a b : ℚ) : Prop :=
  |a - b| ≤ max ((1 / 10 ^ 9) * max |a| |b|) 0

instance (a b : ℚ) : Decidable (pyisclose a b) :=
  inferInstanceAs (Decidable (_ ≤ _))

/-- Python `int(x)` on a float: truncation toward zero. -/
noncomputable def pyint (x : ℝ) : ℤ :=
  if 0 ≤ x then ⌊x⌋ else ⌈x⌉

/-- `Trader.calc_welfare` (src/agents.py lines 65-73): Cobb-Douglas
welfare `sugar**(ms/m) * spice**(msp/m)` with `m = ms + msp`. -/
noncomputable def calc_welfare (self : Trader) (sugar spice : ℚ) : ℝ :=
  let m := self.metabolism_sugar + self.metabolism_spice
  (sugar : ℝ) ^ ((self.metabolism_sugar / m : ℚ) : ℝ) *
    (spice : ℝ) ^ ((self.metabolism_spice / m : ℚ) : ℝ)

/-- `Trader.calc_mrs` (src/agents.py lines 75-81):
`(spice / metabolism_spice) / (sugar / metabolism_sugar)`. -/
def calc_mrs (self : Trader) (sugar spice : ℚ) : ℚ :=
  (spice / self.metabolism_spice) / (sugar / self.metabolism_sugar)

/-- `Trader.calc_sell_amount` (src/agents.py lines 83-102): whole-unit
discretization of a trade at `price`; `int(...)` is Python truncation. -/
noncomputable def calc_sell_amount (price : ℝ) : ℤ × ℤ :=
  if 1 ≤ price then (1, pyint price) else (pyint (1 / price), 1)

/-- `Trader.exchange_resources` (src/agents.py lines 104-117): `self`
buys `sugar` units of sugar from `other`, paying `spice` units of spice.
Returns the updated (self, other). -/
def exchange_resources (self other : Trader) (sugar spice : ℚ) :
    Trader × Trader :=
  ({ self with sugar := self.sugar + sugar, spice := self.spice - spice },
   { other with sugar := other.sugar - sugar, spice := other.spice + spice })

/-- `Trader.sell_spice` (src/agents.py lines 119-156), literally as the
source reads. After the balance check the function always raises
`AttributeError`: the conjunction at lines 143-146 first evaluates
`welfare_self < self.calc_welfare(self_sugar, self_spice)`; when that is
true Python next evaluates `other.calculate_welfare(...)`, an attribute
no class of the sources defines; when it is false the conjunction
short-circuits, and line 149 then evaluates `other.calculate(...)`,
likewise undefined. Result on success would be (self, other, sold). -/
noncomputable def sell_spice (self other : Trader) (price : ℝ)
    (welfare_self welfare_other : ℝ) :
    Except PyErr (Trader × Trader × Bool) :=
  let q := calc_sell_amount price
  let sugar_exchanged : ℚ := (q.1 : ℚ)
  let spice_exchanged : ℚ := (q.2 : ℚ)
  let self_sugar := self.sugar + sugar_exchanged
  let self_spice := self.spice - spice_exchanged
  let other_sugar := other.sugar - sugar_exchanged
  let other_spice := other.spice + spice_exchanged
  if self_sugar ≤ 0 ∨ self_spice ≤ 0 ∨ other_sugar ≤ 0 ∨ other_spice ≤ 0 then
    .ok (self, other, false)
  else if welfare_self < calc_welfare self self_sugar self_spice then
    .error (.attributeError .calculate_welfare)
  else
    .error (.attributeError .calculate)

/-- `Trader.sell_spice` with the two undefined attribute references
resolved. Modelled from the spec: `other.calculate_welfare` and
`other.calculate` (src/agents.py lines 145 and 149) are defined nowhere
in the sources; per the spec acceptance criteria — the both-better-off
welfare test and post-trade MRS of the seller strictly greater than
post-trade MRS of the buyer — they stand for `calc_welfare` and
`calc_mrs` of the buyer. Everything else is literal: the balance check,
the criteria, the commit via `exchange_resources`. -/
noncomputable def sell_spice_spec (self other : Trader) (price : ℝ)
    (welfare_self welfare_other : ℝ) :
    Trader × Trader × Bool :=
  let q := calc_sell_amount price
  let sugar_exchanged : ℚ := (q.1 : ℚ)
  let spice_exchanged : ℚ := (q.2 : ℚ)
  let self_sugar := self.sugar + sugar_exchanged
  let self_spice := self.spice - spice_exchanged
  let other_sugar := other.sugar - sugar_exchanged
  let other_spice := other.spice + spice_exchanged
  if self_sugar ≤ 0 ∨ self_spice ≤ 0 ∨ other_sugar ≤ 0 ∨ other_spice ≤ 0 then
    (self, other, false)
  else if ¬ ((welfare_self < calc_welfare self self_sugar self_spice ∧
              welfare_other < calc_welfare other other_sugar other_spice) ∧
             calc_mrs other other_sugar other_spice <
               calc_mrs self self_sugar self_spice) then
    (self, other, false)
  else
    let p := exchange_resources self other sugar_exchanged spice_exchanged
    (p.1, p.2, true)

/-- The body of `Trader.trade` (src/agents.py lines 158-202), with the
recursive call `self.trade(other)` abstracted as `recur` and the helper
`sell_spice` as `sell` (in the buyer branch the roles of the pair are
swapped exactly as `other.sell_spice(self, price, welfare_other,
welfare_self)` does, and the result is mapped back to (self, other)
order). Note the source computes `mrs_other` as
`self.calc_mrs(other.sugar, other.spice)` — with the metabolism rates of
`self` — which the embedding reproduces literally. -/
noncomputable def trade_body
    (sell : Trader → Trader → ℝ → ℝ → ℝ → Except PyErr (Trader × Trader × Bool))
    (recur : Trader → Trader → Except PyErr (Trader × Trader))
    (self other : Trader) : Except PyErr (Trader × Trader) :=
  if ¬ (0 < self.sugar ∧ 0 < self.spice ∧ 0 < other.sugar ∧ 0 < other.spice) then
    .error .assertionError
  else
    let mrs_self := calc_mrs self self.sugar self.spice
    let mrs_other := calc_mrs self other.sugar other.spice
    let welfare_self := calc_welfare self self.sugar self.spice
    let welfare_other := calc_welfare other other.sugar other.spice
    if pyisclose mrs_self mrs_other then .ok (self, other)
    else
      let price := Real.sqrt ((mrs_self * mrs_other : ℚ) : ℝ)
      let buyer_or_seller : Role :=
        if mrs_other < mrs_self then .seller else .buyer
      let result :=
        if mrs_other < mrs_self then
          (sell self other price welfare_self welfare_other).map
            (fun r => (r.1, r.2.1, r.2.2))
        else
          (sell other self price welfare_other welfare_self).map
            (fun r => (r.2.1, r.1, r.2.2))
      match result with
      | .error e => .error e
      | .ok (self1, other1, false) => .ok (self1, other1)
      | .ok (self1, other1, true) =>
          recur
            { self1 with
              prices := self1.prices ++ [price],
              trade_partners := self1.trade_partners ++ [other1.unique_id],
              bought_or_sold := self1.bought_or_sold ++ [buyer_or_seller] }
            other1

/-- Fuel-indexed unfolding of the unbounded recursion of `Trader.trade`;
running out of fuel is Python exhausting its call stack. -/
noncomputable def trade_aux
    (sell : Trader → Trader → ℝ → ℝ → ℝ → Except PyErr (Trader × Trader × Bool)) :
    ℕ → Trader → Trader → Except PyErr (Trader × Trader)
  | 0 => fun _ _ => .error .recursionError
  | n + 1 => trade_body sell (trade_aux sell n)

/-- `Trader.trade` literally as the source reads, driven by the literal
`sell_spice`. -/
noncomputable def trade (fuel : ℕ) (self other : Trader) :
    Except PyErr (Trader × Trader) :=
  trade_aux sell_spice fuel self other

/-- `Trader.trade` driven by the repaired helper `sell_spice_spec`
(see its doc comment: the only departure from the source is resolving
the two undefined attribute references per the spec). -/
noncomputable def trade_spec (fuel : ℕ) (self other : Trader) :
    Except PyErr (Trader × Trader) :=
  trade_aux (fun a b p wa wo => .ok (sell_spice_spec a b p wa wo)) fuel self other

/-- `Trader.eat` (src/agents.py lines 254-270) at the cell the trader
occupies. The sugar half harvests `sugar_patch.amount` and zeroes the
patch, then metabolism is subtracted. The spice half executes
`self.spice += spice_patch` — adding the patch object itself, not its
`amount`, to a number — which is an ill-typed operation (`TypeError`),
so the function raises whenever a spice patch is present. -/
def eat (self : Trader) (cell : Cell) : Except PyErr (Trader × Cell) :=
  let harvested :=
    match cell.sugar_patch with
    | some p =>
        ({ self with sugar := self.sugar + p.amount },
         { cell with sugar_patch := some { p with amount := 0 } })
    | none => (self, cell)
  let self1 := { harvested.1 with
                 sugar := harvested.1.sugar - self.metabolism_sugar }
  match harvested.2.spice_patch with
  | some _ => .error .typeError
  | none =>
      .ok ({ self1 with spice := self1.spice - self.metabolism_spice },
           harvested.2)

/-- `utils.flatten` (src/utils.py lines 15-20): collapse the per-agent
price lists into one list. -/
def flatten {α : Type} (l : List (List α)) : List α :=
  l.flatten

/-- `utils.geometric_mean` (src/utils.py lines 22-26):
`np.exp(np.log(list_of_prices).mean())`. The mean of an empty array is
NaN in NumPy, and exp(NaN) is NaN; the undefined float value is
modelled as `none`. -/
noncomputable def geometric_mean (list_of_prices : List ℝ) : Option ℝ :=
  if list_of_prices = [] then none
  else some (Real.exp ((list_of_prices.map Real.log).sum / list_of_prices.length))

/-- `utils.get_distance`, modelled from the spec: a pure function
computing the Euclidean distance between two grid coordinates. The
source (src/utils.py lines 4-13) unpacks its arguments through a
`coordinate` attribute, but every position the repository passes to it
(`Trader.move`, src/agents.py lines 241-246) is a plain coordinate
tuple, which has no such attribute; the formula itself is
sqrt((x1-x2)**2 + (y1-y2)**2) on the two coordinates. -/
noncomputable def get_distance (cell_1 cell_2 : ℤ × ℤ) : ℝ :=
  Real.sqrt (((cell_1.1 - cell_2.1) ^ 2 + (cell_1.2 - cell_2.2) ^ 2 : ℤ) : ℝ)

/-- Concrete trader: endowment (sugar 5, spice 10), both metabolisms 1,
empty per-tick history. -/
def traderA : Trader := ⟨1, 5, 10, 1, 1, [], [], []⟩

/-- Concrete trader: endowment (sugar 10, spice 5), both metabolisms 1,
empty per-tick history. -/
def traderB : Trader := ⟨2, 10, 5, 1, 1, [], [], []⟩

/-- `traderA` after one committed exchange with `traderB` (one sugar
bought for one spice), before any history is recorded. -/
def traderA1pre : Trader := ⟨1, 6, 9, 1, 1, [], [], []⟩

/-- `traderA` after one committed and recorded exchange with `traderB`:
price 1, partner id 2, role seller. -/
def traderA1 : Trader := ⟨1, 6, 9, 1, 1, [1], [2], [.seller]⟩

/-- `traderB` after one committed exchange with `traderA`; its history
lists stay empty. -/
def traderB1 : Trader := ⟨2, 9, 6, 1, 1, [], [], []⟩

/-- `traderA` after a second committed exchange with `traderB`, before
the second history record is appended. -/
def traderA2pre : Trader := ⟨1, 7, 8, 1, 1, [1], [2], [.seller]⟩

/-- `traderA` after two committed and recorded exchanges with `traderB`. -/
def traderA2 : Trader := ⟨1, 7, 8, 1, 1, [1, 1], [2, 2], [.seller, .seller]⟩

/-- `traderB` after two committed exchanges with `traderA`; its history
lists stay empty. -/
def traderB2 : Trader := ⟨2, 8, 7, 1, 1, [], [], []⟩

/-- Concrete trader with very little sugar (1/10) and one unit of
spice, both metabolisms 1. -/
def traderPoor : Trader := ⟨3, 1 / 10, 1, 1, 1, [], [], []⟩

/-- Concrete trader with ten sugar and one spice, both metabolisms 1. -/
def traderRich : Trader := ⟨4, 10, 1, 1, 1, [], [], []⟩

/-! ## Helper lemmas -/

theorem pyint_of_nonneg {x : ℝ} (h : 0 ≤ x) : pyint x = ⌊x⌋ :=
  if_pos h

theorem calc_sell_amount_one : calc_sell_amount 1 = (1, 1) := by
  rw [calc_sell_amount, if_pos le_rfl, pyint_of_nonneg zero_le_one, Int.floor_one]

/-- Cobb-Douglas welfare with both metabolism rates equal to one is the
square root of the product of the holdings. -/
theorem calc_welfare_unit (t : Trader) (h1 : t.metabolism_sugar = 1)
    (h2 : t.metabolism_spice = 1) (x y : ℚ) (hx : 0 ≤ x) :
    calc_welfare t x y = Real.sqrt ((x : ℝ) * (y : ℝ)) := by
  rw [calc_welfare, Real.sqrt_mul (by exact_mod_cast hx),
    Real.sqrt_eq_rpow, Real.sqrt_eq_rpow]
  rw [h1, h2]
  norm_num

theorem welfare_unit_lt (t : Trader) (h1 : t.metabolism_sugar = 1)
    (h2 : t.metabolism_spice = 1) {x y u v : ℚ} (hx : 0 ≤ x) (hy : 0 ≤ y)
    (hu : 0 ≤ u) (hxy : x * y < u * v) :
    calc_welfare t x y < calc_welfare t u v := by
  rw [calc_welfare_unit t h1 h2 x y hx, calc_welfare_unit t h1 h2 u v hu]
  exact Real.sqrt_lt_sqrt (by positivity) (by exact_mod_cast hxy)

theorem welfare_unit_eq (t : Trader) (h1 : t.metabolism_sugar = 1)
    (h2 : t.metabolism_spice = 1) {x y u v : ℚ} (hx : 0 ≤ x) (hu : 0 ≤ u)
    (hxy : x * y = u * v) :
    calc_welfare t x y = calc_welfare t u v := by
  rw [calc_welfare_unit t h1 h2 x y hx, calc_welfare_unit t h1 h2 u v hu]
  congr 1
  exact_mod_cast hxy

/-! ## Unfolding lemmas for the trade protocol -/

theorem trade_aux_succ
    (sell : Trader → Trader → ℝ → ℝ → ℝ → Except PyErr (Trader × Trader × Bool))
    (n : ℕ) (self other : Trader) :
    trade_aux sell (n + 1) self other =
      trade_body sell (trade_aux sell n) self other := rfl

/-- One round of `Trader.trade` in the seller direction when the helper
does not sell: the protocol stops with the pair the helper returned. -/
theorem trade_body_not_sold
    (sell : Trader → Trader → ℝ → ℝ → ℝ → Except PyErr (Trader × Trader × Bool))
    (recur : Trader → Trader → Except PyErr (Trader × Trader))
    (self other s1 o1 : Trader)
    (hpos : 0 < self.sugar ∧ 0 < self.spice ∧ 0 < other.sugar ∧ 0 < other.spice)
    (hnc : ¬ pyisclose (calc_mrs self self.sugar self.spice)
      (calc_mrs self other.sugar other.spice))
    (hdir : calc_mrs self other.sugar other.spice <
      calc_mrs self self.sugar self.spice)
    (hsell : sell self other
        (Real.sqrt ((calc_mrs self self.sugar self.spice *
          calc_mrs self other.sugar other.spice : ℚ) : ℝ))
        (calc_welfare self self.sugar self.spice)
        (calc_welfare other other.sugar other.spice) = .ok (s1, o1, false)) :
    trade_body sell recur self other = .ok (s1, o1) := by
  simp only [trade_body, if_neg (not_not_intro hpos), if_neg hnc, if_pos hdir,
    hsell, Except.map]

/-- One round of `Trader.trade` in the seller direction when the helper
sells: the initiating trader records price, partner id and role seller,
and the protocol recurses on the updated pair. -/
theorem trade_body_sold
    (sell : Trader → Trader → ℝ → ℝ → ℝ → Except PyErr (Trader × Trader × Bool))
    (recur : Trader → Trader → Except PyErr (Trader × Trader))
    (self other s1 o1 : Trader)
    (hpos : 0 < self.sugar ∧ 0 < self.spice ∧ 0 < other.sugar ∧ 0 < other.spice)
    (hnc : ¬ pyisclose (calc_mrs self self.sugar self.spice)
      (calc_mrs self other.sugar other.spice))
    (hdir : calc_mrs self other.sugar other.spice <
      calc_mrs self self.sugar self.spice)
    (hsell : sell self other
        (Real.sqrt ((calc_mrs self self.sugar self.spice *
          calc_mrs self other.sugar other.spice : ℚ) : ℝ))
        (calc_welfare self self.sugar self.spice)
        (calc_welfare other other.sugar other.spice) = .ok (s1, o1, true)) :
    trade_body sell recur self other =
      recur
        { s1 with
          prices := s1.prices ++
            [Real.sqrt ((calc_mrs self self.sugar self.spice *
              calc_mrs self other.sugar other.spice : ℚ) : ℝ)],
          trade_partners := s1.trade_partners ++ [o1.unique_id],
          bought_or_sold := s1.bought_or_sold ++ [.seller] }
        o1 := by
  simp only [trade_body, if_neg (not_not_intro hpos), if_neg hnc, if_pos hdir,
    hsell, Except.map]

/-- One round of `Trader.trade` in the buyer direction when the helper
sells: the initiating trader records price, partner id and role buyer,
and the protocol recurses on the updated pair. -/
theorem trade_body_sold_buyer
    (sell : Trader → Trader → ℝ → ℝ → ℝ → Except PyErr (Trader × Trader × Bool))
    (recur : Trader → Trader → Except PyErr (Trader × Trader))
    (self other s1 o1 : Trader)
    (hpos : 0 < self.sugar ∧ 0 < self.spice ∧ 0 < other.sugar ∧ 0 < other.spice)
    (hnc : ¬ pyisclose (calc_mrs self self.sugar self.spice)
      (calc_mrs self other.sugar other.spice))
    (hdir : calc_mrs self self.sugar self.spice <
      calc_mrs self other.sugar other.spice)
    (hsell : sell other self
        (Real.sqrt ((calc_mrs self self.sugar self.spice *
          calc_mrs self other.sugar other.spice : ℚ) : ℝ))
        (calc_welfare other other.sugar other.spice)
        (calc_welfare self self.sugar self.spice) = .ok (o1, s1, true)) :
    trade_body sell recur self other =
      recur
        { s1 with
          prices := s1.prices ++
            [Real.sqrt ((calc_mrs self self.sugar self.spice *
              calc_mrs self other.sugar other.spice : ℚ) : ℝ)],
          trade_partners := s1.trade_partners ++ [o1.unique_id],
          bought_or_sold := s1.bought_or_sold ++ [.buyer] }
        o1 := by
  simp only [trade_body, if_neg (not_not_intro hpos), if_neg hnc,
    if_neg (lt_asymm hdir), hsell, Except.map]

/-- The literal `Trader.sell_spice` rejects at the balance check. -/
theorem sell_spice_reject_balance (self other : Trader) (price ws wo : ℝ)
    (hbal : self.sugar + ((calc_sell_amount price).1 : ℚ) ≤ 0 ∨
            self.spice - ((calc_sell_amount price).2 : ℚ) ≤ 0 ∨
            other.sugar - ((calc_sell_amount price).1 : ℚ) ≤ 0 ∨
            other.spice + ((calc_sell_amount price).2 : ℚ) ≤ 0) :
    sell_spice self other price ws wo = .ok (self, other, false) := by
  simp only [sell_spice, if_pos hbal]

/-- The repaired `sell_spice_spec` rejects at the balance check. -/
theorem sell_spice_spec_reject_balance (self other : Trader) (price ws wo : ℝ)
    (hbal : self.sugar + ((calc_sell_amount price).1 : ℚ) ≤ 0 ∨
            self.spice - ((calc_sell_amount price).2 : ℚ) ≤ 0 ∨
            other.sugar - ((calc_sell_amount price).1 : ℚ) ≤ 0 ∨
            other.spice + ((calc_sell_amount price).2 : ℚ) ≤ 0) :
    sell_spice_spec self other price ws wo = (self, other, false) := by
  simp only [sell_spice_spec, if_pos hbal]

/-- A sold result of `sell_spice_spec` is exactly the committed
`exchange_resources` balances. -/
theorem sell_spice_spec_sold (self other : Trader) (price ws wo : ℝ)
    (s1 o1 : Trader)
    (h : sell_spice_spec self other price ws wo = (s1, o1, true)) :
    s1 = { self with
           sugar := self.sugar + ((calc_sell_amount price).1 : ℚ),
           spice := self.spice - ((calc_sell_amount price).2 : ℚ) } ∧
    o1 = { other with
           sugar := other.sugar - ((calc_sell_amount price).1 : ℚ),
           spice := other.spice + ((calc_sell_amount price).2 : ℚ) } := by
  rw [sell_spice_spec] at h
  split at h
  · simp at h
  · split at h
    · simp at h
    · obtain ⟨rfl, rfl, -⟩ := Prod.mk.injEq .. ▸ h
      exact ⟨rfl, rfl⟩

/-! ## Concrete evaluation of the repaired protocol on the pair
(traderA, traderB): two exchanges are accepted, a third is rejected
because welfare would not strictly increase. -/

theorem sellR1 :
    sell_spice_spec traderA traderB 1
      (calc_welfare traderA traderA.sugar traderA.spice)
      (calc_welfare traderB traderB.sugar traderB.spice) =
      (traderA1pre, traderB1, true) := by
  have hwA : calc_welfare traderA 5 10 < calc_welfare traderA 6 9 :=
    welfare_unit_lt traderA rfl rfl (by norm_num) (by norm_num) (by norm_num)
      (by norm_num)
  have hwB : calc_welfare traderB 10 5 < calc_welfare traderB 9 6 :=
    welfare_unit_lt traderB rfl rfl (by norm_num) (by norm_num) (by norm_num)
      (by norm_num)
  have hmrs : calc_mrs traderB 9 6 < calc_mrs traderA 6 9 := by
    norm_num [calc_mrs, traderA, traderB]
  simp only [sell_spice_spec, calc_sell_amount_one]
  norm_num [show traderA.sugar = 5 from rfl, show traderA.spice = 10 from rfl,
    show traderB.sugar = 10 from rfl, show traderB.spice = 5 from rfl]
  rw [if_neg (show ¬ _ by
    intro h
    exact absurd (h hwA hwB) (not_le.mpr hmrs))]
  simp [exchange_resources, traderA, traderB, traderA1pre, traderB1]
  norm_num

theorem sellR2 :
    sell_spice_spec traderA1 traderB1 1
      (calc_welfare traderA1 traderA1.sugar traderA1.spice)
      (calc_welfare traderB1 traderB1.sugar traderB1.spice) =
      (traderA2pre, traderB2, true) := by
  have hwA : calc_welfare traderA1 6 9 < calc_welfare traderA1 7 8 :=
    welfare_unit_lt traderA1 rfl rfl (by norm_num) (by norm_num) (by norm_num)
      (by norm_num)
  have hwB : calc_welfare traderB1 9 6 < calc_welfare traderB1 8 7 :=
    welfare_unit_lt traderB1 rfl rfl (by norm_num) (by norm_num) (by norm_num)
      (by norm_num)
  have hmrs : calc_mrs traderB1 8 7 < calc_mrs traderA1 7 8 := by
    norm_num [calc_mrs, traderA1, traderB1]
  simp only [sell_spice_spec, calc_sell_amount_one]
  norm_num [show traderA1.sugar = 6 from rfl, show traderA1.spice = 9 from rfl,
    show traderB1.sugar = 9 from rfl, show traderB1.spice = 6 from rfl]
  rw [if_neg (show ¬ _ by
    intro h
    exact absurd (h hwA hwB) (not_le.mpr hmrs))]
  simp [exchange_resources, traderA1, traderB1, traderA2pre, traderB2]
  norm_num

theorem sellR3 :
    sell_spice_spec traderA2 traderB2 1
      (calc_welfare traderA2 traderA2.sugar traderA2.spice)
      (calc_welfare traderB2 traderB2.sugar traderB2.spice) =
      (traderA2, traderB2, false) := by
  have hwA : ¬ calc_welfare traderA2 7 8 < calc_welfare traderA2 8 7 := by
    rw [welfare_unit_eq traderA2 rfl rfl (by norm_num) (by norm_num)
      (by norm_num : (7 : ℚ) * 8 = 8 * 7)]
    exact lt_irrefl _
  simp only [sell_spice_spec, calc_sell_amount_one]
  norm_num [show traderA2.sugar = 7 from rfl, show traderA2.spice = 8 from rfl,
    show traderB2.sugar = 8 from rfl, show traderB2.spice = 7 from rfl]
  intro hc
  exact absurd hc hwA

theorem tradeR1 (n : ℕ) :
    trade_spec (n + 1) traderA traderB = trade_spec n traderA1 traderB1 := by
  have hpos : 0 < traderA.sugar ∧ 0 < traderA.spice ∧
      0 < traderB.sugar ∧ 0 < traderB.spice := by
    norm_num [traderA, traderB]
  have hnc : ¬ pyisclose (calc_mrs traderA traderA.sugar traderA.spice)
      (calc_mrs traderA traderB.sugar traderB.spice) := by
    norm_num [pyisclose, calc_mrs, traderA, traderB, abs, max_def]
  have hdir : calc_mrs traderA traderB.sugar traderB.spice <
      calc_mrs traderA traderA.sugar traderA.spice := by
    norm_num [calc_mrs, traderA, traderB]
  have hprice : Real.sqrt ((calc_mrs traderA traderA.sugar traderA.spice *
      calc_mrs traderA traderB.sugar traderB.spice : ℚ) : ℝ) = 1 := by
    rw [show (calc_mrs traderA traderA.sugar traderA.spice *
      calc_mrs traderA traderB.sugar traderB.spice : ℚ) = 1 by
        norm_num [calc_mrs, traderA, traderB]]
    rw [Rat.cast_one, Real.sqrt_one]
  have step := trade_body_sold
    (fun a b p wa wo => .ok (sell_spice_spec a b p wa wo))
    (trade_aux (fun a b p wa wo => .ok (sell_spice_spec a b p wa wo)) n)
    traderA traderB traderA1pre traderB1 hpos hnc hdir
    (by simp only; rw [hprice, sellR1])
  rw [hprice] at step
  rw [show ({ traderA1pre with
      prices := traderA1pre.prices ++ [(1 : ℝ)],
      trade_partners := traderA1pre.trade_partners ++ [traderB1.unique_id],
      bought_or_sold := traderA1pre.bought_or_sold ++ [.seller] } : Trader) =
    traderA1 by simp [traderA1pre, traderA1, traderB1]] at step
  exact step

theorem tradeR2 (n : ℕ) :
    trade_spec (n + 1) traderA1 traderB1 = trade_spec n traderA2 traderB2 := by
  have hpos : 0 < traderA1.sugar ∧ 0 < traderA1.spice ∧
      0 < traderB1.sugar ∧ 0 < traderB1.spice := by
    norm_num [traderA1, traderB1]
  have hnc : ¬ pyisclose (calc_mrs traderA1 traderA1.sugar traderA1.spice)
      (calc_mrs traderA1 traderB1.sugar traderB1.spice) := by
    norm_num [pyisclose, calc_mrs, traderA1, traderB1, abs, max_def]
  have hdir : calc_mrs traderA1 traderB1.sugar traderB1.spice <
      calc_mrs traderA1 traderA1.sugar traderA1.spice := by
    norm_num [calc_mrs, traderA1, traderB1]
  have hprice : Real.sqrt ((calc_mrs traderA1 traderA1.sugar traderA1.spice *
      calc_mrs traderA1 traderB1.sugar traderB1.spice : ℚ) : ℝ) = 1 := by
    rw [show (calc_mrs traderA1 traderA1.sugar traderA1.spice *
      calc_mrs traderA1 traderB1.sugar traderB1.spice : ℚ) = 1 by
        norm_num [calc_mrs, traderA1, traderB1]]
    rw [Rat.cast_one, Real.sqrt_one]
  have step := trade_body_sold
    (fun a b p wa wo => .ok (sell_spice_spec a b p wa wo))
    (trade_aux (fun a b p wa wo => .ok (sell_spice_spec a b p wa wo)) n)
    traderA1 traderB1 traderA2pre traderB2 hpos hnc hdir
    (by simp only; rw [hprice, sellR2])
  rw [hprice] at step
  rw [show ({ traderA2pre with
      prices := traderA2pre.prices ++ [(1 : ℝ)],
      trade_partners := traderA2pre.trade_partners ++ [traderB2.unique_id],
      bought_or_sold := traderA2pre.bought_or_sold ++ [.seller] } : Trader) =
    traderA2 by simp [traderA2pre, traderA2, traderB2]] at step
  exact step

theorem tradeR3 (n : ℕ) :
    trade_spec (n + 1) traderA2 traderB2 = .ok (traderA2, traderB2) := by
  have hpos : 0 < traderA2.sugar ∧ 0 < traderA2.spice ∧
      0 < traderB2.sugar ∧ 0 < traderB2.spice := by
    norm_num [traderA2, traderB2]
  have hnc : ¬ pyisclose (calc_mrs traderA2 traderA2.sugar traderA2.spice)
      (calc_mrs traderA2 traderB2.sugar traderB2.spice) := by
    norm_num [pyisclose, calc_mrs, traderA2, traderB2, abs, max_def]
  have hdir : calc_mrs traderA2 traderB2.sugar traderB2.spice <
      calc_mrs traderA2 traderA2.sugar traderA2.spice := by
    norm_num [calc_mrs, traderA2, traderB2]
  have hprice : Real.sqrt ((calc_mrs traderA2 traderA2.sugar traderA2.spice *
      calc_mrs traderA2 traderB2.sugar traderB2.spice : ℚ) : ℝ) = 1 := by
    rw [show (calc_mrs traderA2 traderA2.sugar traderA2.spice *
      calc_mrs traderA2 traderB2.sugar traderB2.spice : ℚ) = 1 by
        norm_num [calc_mrs, traderA2, traderB2]]
    rw [Rat.cast_one, Real.sqrt_one]
  exact trade_body_not_sold
    (fun a b p wa wo => .ok (sell_spice_spec a b p wa wo))
    (trade_aux (fun a b p wa wo => .ok (sell_spice_spec a b p wa wo)) n)
    traderA2 traderB2 traderA2 traderB2 hpos hnc hdir
    (by simp only; rw [hprice, sellR3])

/-! ## Claim theorems -/

/-- C2. For every price p > 0, `calc_sell_amount` returns
(1, floor p) when p ≥ 1 and (floor (1/p), 1) when p < 1, and both
returned quantities are at least one whole unit. -/
theorem calc_sell_amount_whole_units (p : ℝ) (hp : 0 < p) :
    (1 ≤ p → calc_sell_amount p = (1, ⌊p⌋)) ∧
    (p < 1 → calc_sell_amount p = (⌊1 / p⌋, 1)) ∧
    1 ≤ (calc_sell_amount p).1 ∧ 1 ≤ (calc_sell_amount p).2 := by
  by_cases h : 1 ≤ p
  · have hq : calc_sell_amount p = (1, ⌊p⌋) := by
      rw [calc_sell_amount, if_pos h, pyint_of_nonneg hp.le]
    refine ⟨fun _ => hq, fun h' => absurd h (not_le.mpr h'), ?_, ?_⟩
    · rw [hq]
    · rw [hq]
      exact Int.le_floor.mpr (by exact_mod_cast h)
  · have h' : p < 1 := not_le.mp h
    have hinv : (1 : ℝ) ≤ 1 / p := one_le_one_div hp h'.le
    have hq : calc_sell_amount p = (⌊1 / p⌋, 1) := by
      rw [calc_sell_amount, if_neg h, pyint_of_nonneg (by positivity)]
    refine ⟨fun h1 => absurd h1 h, fun _ => hq, ?_, ?_⟩
    · rw [hq]
      exact Int.le_floor.mpr (by exact_mod_cast hinv)
    · rw [hq]

/-- C2 witness: the worked examples of the spec, price 3 gives (1, 3),
price 0.25 gives (4, 1), price 1 gives (1, 1). -/
theorem calc_sell_amount_whole_units_witness :
    calc_sell_amount 3 = (1, 3) ∧ calc_sell_amount (1 / 4) = (4, 1) ∧
    calc_sell_amount 1 = (1, 1) := by
  refine ⟨?_, ?_, ?_⟩
  · rw [(calc_sell_amount_whole_units 3 (by norm_num)).1 (by norm_num)]
    norm_num
  · rw [(calc_sell_amount_whole_units (1 / 4) (by norm_num)).2.1 (by norm_num)]
    norm_num
  · rw [(calc_sell_amount_whole_units 1 (by norm_num)).1 (by norm_num)]
    norm_num

/-- C9. When zero trades occurred in a tick every per-agent price list
is empty, the flattened list is empty, and `geometric_mean` of it is
the undefined float value (NaN, modelled as `none`) instead of an
error. -/
theorem geometric_mean_no_trades_undefined (pricess : List (List ℝ))
    (h : ∀ l ∈ pricess, l = []) :
    geometric_mean (flatten pricess) = none := by
  have hf : flatten pricess = [] := by
    simp only [flatten, List.flatten_eq_nil_iff]
    exact h
  rw [hf, geometric_mean, if_pos rfl]

/-- C9 witness: two agents, both with an empty per-tick price list. -/
theorem geometric_mean_no_trades_undefined_witness :
    geometric_mean (flatten [[], []]) = none :=
  geometric_mean_no_trades_undefined [[], []] (by simp)

/-- C10. `exchange_resources` leaves the combined sugar total and the
combined spice total of the pair unchanged, and consequently any result
of `sell_spice_spec` (and any non-raising result of the literal
`sell_spice`) conserves the pair totals of both resources. -/
theorem exchange_conserves_totals (self other : Trader) :
    (∀ sugar spice : ℚ,
      (exchange_resources self other sugar spice).1.sugar +
          (exchange_resources self other sugar spice).2.sugar =
        self.sugar + other.sugar ∧
      (exchange_resources self other sugar spice).1.spice +
          (exchange_resources self other sugar spice).2.spice =
        self.spice + other.spice) ∧
    (∀ (price ws wo : ℝ) (s1 o1 : Trader) (b : Bool),
      sell_spice_spec self other price ws wo = (s1, o1, b) →
      s1.sugar + o1.sugar = self.sugar + other.sugar ∧
      s1.spice + o1.spice = self.spice + other.spice) ∧
    (∀ (price ws wo : ℝ) (s1 o1 : Trader) (b : Bool),
      sell_spice self other price ws wo = .ok (s1, o1, b) →
      s1.sugar + o1.sugar = self.sugar + other.sugar ∧
      s1.spice + o1.spice = self.spice + other.spice) := by
  refine ⟨fun sugar spice => ⟨by simp only [exchange_resources]; ring,
    by simp only [exchange_resources]; ring⟩, ?_, ?_⟩
  · intro price ws wo s1 o1 b h
    rw [sell_spice_spec] at h
    split at h
    · obtain ⟨rfl, rfl, rfl⟩ := Prod.mk.injEq .. ▸ h
      exact ⟨rfl, rfl⟩
    · split at h
      · obtain ⟨rfl, rfl, rfl⟩ := Prod.mk.injEq .. ▸ h
        exact ⟨rfl, rfl⟩
      · obtain ⟨rfl, rfl, rfl⟩ := Prod.mk.injEq .. ▸ h
        constructor <;> · simp only [exchange_resources]; ring
  · intro price ws wo s1 o1 b h
    rw [sell_spice] at h
    split at h
    · obtain ⟨rfl, rfl, rfl⟩ := Prod.mk.injEq .. ▸ (Except.ok.injEq .. ▸ h)
      exact ⟨rfl, rfl⟩
    · split at h <;> exact absurd h (by simp)

/-- C1. Whenever the tentative balances all stay positive — that is,
whenever the acceptance criteria of `Trader.sell_spice` would actually
be consulted — the literal code raises `AttributeError` instead
(`other.calculate_welfare` or `other.calculate`, neither of which any
class of the sources defines), so no trade can be committed or cleanly
rejected past the balance check. -/
theorem sell_spice_attribute_error (self other : Trader) (price ws wo : ℝ)
    (h1 : 0 < self.sugar + ((calc_sell_amount price).1 : ℚ))
    (h2 : 0 < self.spice - ((calc_sell_amount price).2 : ℚ))
    (h3 : 0 < other.sugar - ((calc_sell_amount price).1 : ℚ))
    (h4 : 0 < other.spice + ((calc_sell_amount price).2 : ℚ)) :
    ∃ m : MissingMethod,
      sell_spice self other price ws wo = .error (.attributeError m) := by
  rw [sell_spice]
  rw [if_neg (by push_neg; exact ⟨h1, h2, h3, h4⟩)]
  split
  · exact ⟨.calculate_welfare, rfl⟩
  · exact ⟨.calculate, rfl⟩

/-- C1 witness: traders (sugar 5, spice 10) and (sugar 10, spice 5) at
price 1; every tentative balance is positive, and the call raises. -/
theorem sell_spice_attribute_error_witness :
    ∃ m : MissingMethod,
      sell_spice traderA traderB 1 0 0 = .error (.attributeError m) :=
  sell_spice_attribute_error traderA traderB 1 0 0
    (by rw [calc_sell_amount_one]; norm_num [traderA])
    (by rw [calc_sell_amount_one]; norm_num [traderA])
    (by rw [calc_sell_amount_one]; norm_num [traderB])
    (by rw [calc_sell_amount_one]; norm_num [traderB])

/-- C3. If any tentative post-trade balance is ≤ 0 the exchange is
rejected as a no-op: the literal `sell_spice` (and the repaired
`sell_spice_spec`) returns both traders exactly unchanged — balances
and history lists — with sold = False, and when the rejection arises
inside a round of `trade` the protocol terminates for the pair,
returning both traders exactly as they entered. -/
theorem sell_spice_nonpositive_noop (self other : Trader)
    (price ws wo : ℝ) (n : ℕ)
    (hbal : self.sugar + ((calc_sell_amount price).1 : ℚ) ≤ 0 ∨
            self.spice - ((calc_sell_amount price).2 : ℚ) ≤ 0 ∨
            other.sugar - ((calc_sell_amount price).1 : ℚ) ≤ 0 ∨
            other.spice + ((calc_sell_amount price).2 : ℚ) ≤ 0) :
    sell_spice self other price ws wo = .ok (self, other, false) ∧
    sell_spice_spec self other price ws wo = (self, other, false) ∧
    (price = Real.sqrt ((calc_mrs self self.sugar self.spice *
        calc_mrs self other.sugar other.spice : ℚ) : ℝ) →
      0 < self.sugar → 0 < self.spice → 0 < other.sugar → 0 < other.spice →
      ¬ pyisclose (calc_mrs self self.sugar self.spice)
        (calc_mrs self other.sugar other.spice) →
      calc_mrs self other.sugar other.spice <
        calc_mrs self self.sugar self.spice →
      trade (n + 1) self other = .ok (self, other)) := by
  refine ⟨sell_spice_reject_balance self other price ws wo hbal,
    sell_spice_spec_reject_balance self other price ws wo hbal, ?_⟩
  intro hprice h1 h2 h3 h4 hnc hdir
  subst hprice
  rw [trade, trade_aux_succ]
  exact trade_body_not_sold _ _ self other self other ⟨h1, h2, h3, h4⟩ hnc hdir
    (sell_spice_reject_balance self other _ _ _ hbal)

/-- C3 witness: a seller with one unit of spice (sugar 1/10, spice 1)
facing a buyer (sugar 10, spice 1) at price 1: selling one spice would
leave the seller with zero spice, so nothing changes and the protocol
stops. -/
theorem sell_spice_nonpositive_noop_witness :
    sell_spice traderPoor traderRich 1 0 0 = .ok (traderPoor, traderRich, false) ∧
    trade 1 traderPoor traderRich = .ok (traderPoor, traderRich) := by
  have hbal : traderPoor.sugar + ((calc_sell_amount 1).1 : ℚ) ≤ 0 ∨
      traderPoor.spice - ((calc_sell_amount 1).2 : ℚ) ≤ 0 ∨
      traderRich.sugar - ((calc_sell_amount 1).1 : ℚ) ≤ 0 ∨
      traderRich.spice + ((calc_sell_amount 1).2 : ℚ) ≤ 0 := by
    rw [calc_sell_amount_one]
    norm_num [traderPoor]
  have h := sell_spice_nonpositive_noop traderPoor traderRich 1 0 0 0 hbal
  refine ⟨h.1, h.2.2 ?_ ?_ ?_ ?_ ?_ ?_ ?_⟩
  · rw [show (calc_mrs traderPoor traderPoor.sugar traderPoor.spice *
        calc_mrs traderPoor traderRich.sugar traderRich.spice : ℚ) = 1 by
      norm_num [calc_mrs, traderPoor, traderRich]]
    rw [Rat.cast_one, Real.sqrt_one]
  · norm_num [traderPoor]
  · norm_num [traderPoor]
  · norm_num [traderRich]
  · norm_num [traderRich]
  · norm_num [pyisclose, calc_mrs, traderPoor, traderRich, abs, max_def]
  · norm_num [calc_mrs, traderPoor, traderRich]

/-- C4 counterexample. A complete run of the (repaired) bilateral trade
protocol on the pair (traderA, traderB): two exchanges are accepted and
committed, yet only the initiating trader ends with recorded prices,
partners and roles — the partner ends the protocol with all three
history lists still empty, refuting that accepted trades are recorded
on both agents. -/
theorem trade_one_sided_history_cex :
    trade_spec 3 traderA traderB = .ok (traderA2, traderB2) ∧
    traderA2.prices = [1, 1] ∧ traderA2.trade_partners = [2, 2] ∧
    traderA2.bought_or_sold = [.seller, .seller] ∧
    traderB2.prices = [] ∧ traderB2.trade_partners = [] ∧
    traderB2.bought_or_sold = [] := by
  refine ⟨?_, rfl, rfl, rfl, rfl, rfl, rfl⟩
  rw [show (3 : ℕ) = 2 + 1 from rfl, tradeR1 2,
    show (2 : ℕ) = 1 + 1 from rfl, tradeR2 1,
    show (1 : ℕ) = 0 + 1 from rfl, tradeR3 0]

/-- C4 (amended). Whenever a discrete exchange between two traders is
accepted, the balance changes are committed and the price, the partner
id and the role (seller when the initiator has the higher MRS, buyer
otherwise) are recorded on the initiating trader's per-tick history
lists — the partner's lists are not written — after which the protocol
re-runs from the MRS computation on the same pair. -/
theorem trade_accept_commit_record_recurse
    (n : ℕ) (self other s1 o1 : Trader) (P ws wo : ℝ)
    (hP : P = Real.sqrt ((calc_mrs self self.sugar self.spice *
      calc_mrs self other.sugar other.spice : ℚ) : ℝ))
    (hws : ws = calc_welfare self self.sugar self.spice)
    (hwo : wo = calc_welfare other other.sugar other.spice)
    (hpos : 0 < self.sugar ∧ 0 < self.spice ∧ 0 < other.sugar ∧ 0 < other.spice)
    (hnc : ¬ pyisclose (calc_mrs self self.sugar self.spice)
      (calc_mrs self other.sugar other.spice)) :
    (calc_mrs self other.sugar other.spice <
        calc_mrs self self.sugar self.spice →
      sell_spice_spec self other P ws wo = (s1, o1, true) →
      trade_spec (n + 1) self other =
        trade_spec n
          { s1 with
            prices := s1.prices ++ [P],
            trade_partners := s1.trade_partners ++ [o1.unique_id],
            bought_or_sold := s1.bought_or_sold ++ [.seller] } o1 ∧
      s1 = { self with
             sugar := self.sugar + ((calc_sell_amount P).1 : ℚ),
             spice := self.spice - ((calc_sell_amount P).2 : ℚ) } ∧
      o1 = { other with
             sugar := other.sugar - ((calc_sell_amount P).1 : ℚ),
             spice := other.spice + ((calc_sell_amount P).2 : ℚ) }) ∧
    (calc_mrs self self.sugar self.spice <
        calc_mrs self other.sugar other.spice →
      sell_spice_spec other self P wo ws = (o1, s1, true) →
      trade_spec (n + 1) self other =
        trade_spec n
          { s1 with
            prices := s1.prices ++ [P],
            trade_partners := s1.trade_partners ++ [o1.unique_id],
            bought_or_sold := s1.bought_or_sold ++ [.buyer] } o1 ∧
      o1 = { other with
             sugar := other.sugar + ((calc_sell_amount P).1 : ℚ),
             spice := other.spice - ((calc_sell_amount P).2 : ℚ) } ∧
      s1 = { self with
             sugar := self.sugar - ((calc_sell_amount P).1 : ℚ),
             spice := self.spice + ((calc_sell_amount P).2 : ℚ) }) := by
  subst hP hws hwo
  constructor
  · intro hdir hsell
    obtain ⟨hs, ho⟩ := sell_spice_spec_sold self other _ _ _ s1 o1 hsell
    refine ⟨?_, hs, ho⟩
    exact trade_body_sold
      (fun a b p wa wo => .ok (sell_spice_spec a b p wa wo))
      (trade_aux (fun a b p wa wo => .ok (sell_spice_spec a b p wa wo)) n)
      self other s1 o1 hpos hnc hdir (by simp only; rw [hsell])
  · intro hdir hsell
    obtain ⟨ho, hs⟩ := sell_spice_spec_sold other self _ _ _ o1 s1 hsell
    refine ⟨?_, ho, hs⟩
    exact trade_body_sold_buyer
      (fun a b p wa wo => .ok (sell_spice_spec a b p wa wo))
      (trade_aux (fun a b p wa wo => .ok (sell_spice_spec a b p wa wo)) n)
      self other s1 o1 hpos hnc hdir (by simp only; rw [hsell])

/-- C4 witness: the first accepted exchange of the pair
(traderA, traderB) at price 1: balances committed, history recorded on
the initiating trader only, and the protocol re-entered on the updated
pair. -/
theorem trade_accept_commit_record_recurse_witness :
    trade_spec 2 traderA traderB = trade_spec 1 traderA1 traderB1 ∧
    traderA1pre.sugar = traderA.sugar + 1 ∧
    traderA1pre.spice = traderA.spice - 1 ∧
    traderB1.sugar = traderB.sugar - 1 ∧
    traderB1.spice = traderB.spice + 1 := by
  have hprice : (1 : ℝ) = Real.sqrt
      ((calc_mrs traderA traderA.sugar traderA.spice *
        calc_mrs traderA traderB.sugar traderB.spice : ℚ) : ℝ) := by
    rw [show (calc_mrs traderA traderA.sugar traderA.spice *
      calc_mrs traderA traderB.sugar traderB.spice : ℚ) = 1 by
        norm_num [calc_mrs, traderA, traderB]]
    rw [Rat.cast_one, Real.sqrt_one]
  have h := (trade_accept_commit_record_recurse 1 traderA traderB
    traderA1pre traderB1 1
    (calc_welfare traderA traderA.sugar traderA.spice)
    (calc_welfare traderB traderB.sugar traderB.spice)
    hprice rfl rfl
    (by norm_num [traderA, traderB])
    (by norm_num [pyisclose, calc_mrs, traderA, traderB, abs, max_def])).1
    (by norm_num [calc_mrs, traderA, traderB]) sellR1
  refine ⟨?_, by norm_num [traderA1pre, traderA], by norm_num [traderA1pre, traderA],
    by norm_num [traderB1, traderB], by norm_num [traderB1, traderB]⟩
  rw [h.1]
  rw [show ({ traderA1pre with
      prices := traderA1pre.prices ++ [(1 : ℝ)],
      trade_partners := traderA1pre.trade_partners ++ [traderB1.unique_id],
      bought_or_sold := traderA1pre.bought_or_sold ++ [.seller] } : Trader) =
    traderA1 by simp [traderA1pre, traderA1, traderB1]]

/-- C5. Whenever a spice patch is present at the cell, `Trader.eat`
raises `TypeError` at `self.spice += spice_patch` (the patch object,
not its amount, is added to a number) instead of harvesting the spice,
zeroing the patch and subtracting the spice metabolism. -/
theorem eat_spice_type_error (t : Trader) (c : Cell) (p : Patch)
    (hp : c.spice_patch = some p) :
    eat t c = .error .typeError := by
  rw [eat]
  cases hs : c.sugar_patch <;> simp [hs, hp]

/-- C5 witness: a trader standing on a cell with three sugar and four
spice. -/
theorem eat_spice_type_error_witness :
    eat traderA ⟨some ⟨3⟩, some ⟨4⟩⟩ = .error .typeError :=
  eat_spice_type_error traderA ⟨some ⟨3⟩, some ⟨4⟩⟩ ⟨4⟩ rfl

/-- C7. The distance function of the movement rule is the Euclidean
distance: it is nonnegative, symmetric, and its square is
(x1-x2)^2 + (y1-y2)^2. (The literal source raises before computing
it, see the divergence record; this settles the formula the spec
states.) -/
theorem get_distance_euclidean (cell_1 cell_2 : ℤ × ℤ) :
    0 ≤ get_distance cell_1 cell_2 ∧
    get_distance cell_1 cell_2 ^ 2 =
      (((cell_1.1 - cell_2.1) ^ 2 + (cell_1.2 - cell_2.2) ^ 2 : ℤ) : ℝ) ∧
    get_distance cell_1 cell_2 = get_distance cell_2 cell_1 := by
  refine ⟨Real.sqrt_nonneg _, ?_, ?_⟩
  · exact Real.sq_sqrt (by positivity)
  · rw [get_distance, get_distance]
    ring_nf

end Sugarscape
